import Mathlib

/-
Verification of the DrawingImposter server (the Socket.io room state machine).

The server keeps, per room, a mutable RoomState record and mutates it in
event handlers (room:create, room:join, game:start, draw:stroke, chat:send,
vote:submit, imposter:guess, round:next, disconnect) plus one autonomous
setTimeout callback per drawing turn.  Below every handler is embedded as a
pure function on RoomState.  JavaScript objects used as string-keyed records
(votes, leaderboard, the rooms registry) are embedded as insertion-ordered
association lists with the JS object-key semantics: assignment to an existing
key updates it in place keeping its position, assignment to a new key appends,
delete removes.  Math.random-driven choices (imposter index, word pair, room
code from nanoid) are supplied as oracle parameters.  Date.now() is a Nat
parameter.  The single pending setTimeout per room is embedded as a Boolean
timerArmed flag: arming sets it, clearTimeout clears it, and a timer-fire
event consumes it and runs the callback body.
-/

namespace DrawingImposter

set_option maxRecDepth 100000

/-- String.prototype.trim of JS, as a structural computation on the
character list so that concrete runs reduce inside the kernel. -/
def jsTrim (s : String) : String :=
  String.mk (((s.data.dropWhile Char.isWhitespace).reverse.dropWhile
    Char.isWhitespace).reverse)

/-- String.prototype.toLowerCase of JS (on the alphabets appearing in this
development), as a structural computation on the character list. -/
def jsToLower (s : String) : String :=
  String.mk (s.data.map Char.toLower)

inductive Phase where
  | lobby
  | drawing
  | voting
  | results
  deriving DecidableEq, Repr

inductive Tool where
  | brush
  | eraser
  deriving DecidableEq, Repr

structure DrawEvent where
  x0 : Int
  y0 : Int
  x1 : Int
  y1 : Int
  color : String
  size : Nat
  tool : Tool
  deriving DecidableEq, Repr

structure Player where
  id : String
  name : String
  isHost : Bool
  connected : Bool
  wins : Nat
  losses : Nat
  deriving DecidableEq, Repr

structure ChatMsg where
  playerId : String
  name : String
  message : String
  ts : Nat
  deriving DecidableEq, Repr

structure Score where
  wins : Nat
  losses : Nat
  deriving DecidableEq, Repr

structure RoomState where
  code : String
  players : List Player
  phase : Phase
  hostId : String
  turnIndex : Nat
  round : Nat
  imposterId : Option String
  realWord : Option String
  fakeWord : Option String
  currentDrawerId : Option String
  drawing : List DrawEvent
  chat : List ChatMsg
  votes : List (String × String)
  leaderboard : List (String × Score)
  turnEndsAt : Option Nat
  timerArmed : Bool
  deriving DecidableEq, Repr

/-- JS object-key read: value of the first (only) entry with this key. -/
def recGet {α : Type} : List (String × α) → String → Option α
  | [], _ => none
  | e :: rest, k => if e.1 = k then some e.2 else recGet rest k

/-- JS object-key assignment: update an existing key in place, else append. -/
def recSet {α : Type} : List (String × α) → String → α → List (String × α)
  | [], k, v => [(k, v)]
  | e :: rest, k, v => if e.1 = k then (k, v) :: rest else e :: recSet rest k v

/-- JS delete of an object key. -/
def recDel {α : Type} (m : List (String × α)) (k : String) : List (String × α) :=
  m.filter (fun e => e.1 != k)

def recKeys {α : Type} (m : List (String × α)) : List String :=
  m.map (fun e => e.1)

/-- TURN_MS constant of the server. -/
def TURN_MS : Nat := 20000

structure LeaderboardView where
  id : String
  name : String
  wins : Nat
  losses : Nat
  deriving DecidableEq, Repr

structure RoomSnapshot where
  code : String
  phase : Phase
  players : List Player
  turnIndex : Nat
  round : Nat
  imposterId : Option String
  currentDrawerId : Option String
  drawing : List DrawEvent
  chat : List ChatMsg
  turnEndsAt : Option Nat
  leaderboard : List LeaderboardView
  deriving DecidableEq, Repr

/-- The roomView function: the externally visible snapshot broadcast to the
room.  chat.slice(-60) keeps the last 60 messages; the imposter identity is
nulled unless phase is results; the leaderboard view falls back to the
player record's own counters when the leaderboard map has no entry. -/
def roomView (room : RoomState) : RoomSnapshot :=
  { code := room.code
    phase := room.phase
    players := room.players
    turnIndex := room.turnIndex
    round := room.round
    imposterId := if room.phase = Phase.results then room.imposterId else none
    currentDrawerId := room.currentDrawerId
    drawing := room.drawing
    chat := room.chat.drop (room.chat.length - 60)
    turnEndsAt := room.turnEndsAt
    leaderboard := room.players.map (fun p =>
      { id := p.id
        name := p.name
        wins := ((recGet room.leaderboard p.id).map Score.wins).getD p.wins
        losses := ((recGet room.leaderboard p.id).map Score.losses).getD p.losses }) }

/-- The startTurn function.  Arming the setTimeout is modelled by setting
timerArmed (the code first calls clearTimeout on any pending timer, then
schedules a fresh one). -/
def startTurn (room : RoomState) (now : Nat) : RoomState :=
  if room.players.length = 0 then room
  else if room.players.length ≤ room.turnIndex then
    { room with phase := Phase.voting, currentDrawerId := none, turnEndsAt := none }
  else
    { room with
        phase := Phase.drawing
        currentDrawerId := (room.players.get? room.turnIndex).map Player.id
        turnEndsAt := some (now + TURN_MS)
        drawing := []
        timerArmed := true }

/-- The setTimeout callback armed by startTurn: it runs only if the timeout
is still pending, and then unconditionally increments turnIndex and calls
startTurn again (the source callback performs no re-validation of the room's
phase or turn index). -/
def fireTimer (room : RoomState) (now : Nat) : RoomState :=
  if room.timerArmed then
    startTurn { room with timerArmed := false, turnIndex := room.turnIndex + 1 } now
  else room

/-- The startGame function.  Math.floor(Math.random()*players.length) is
modelled by the oracle impIdx taken modulo the player count, and the word
pair returned by pickWordPair by the oracle strings realWord and fakeWord. -/
def startGame (room : RoomState) (impIdx : Nat) (realWord fakeWord : String)
    (now : Nat) : RoomState :=
  if room.players.length < 3 then room
  else
    startTurn
      { room with
          round := room.round + 1
          turnIndex := 0
          votes := []
          imposterId := (room.players.get? (impIdx % room.players.length)).map Player.id
          realWord := some realWord
          fakeWord := some fakeWord } now

/-- The shared leaderboard-update pattern of computeVoting and the guess
handler: for each current player, default the leaderboard entry if absent,
then apply the increment. -/
def updateBoard (lb : List (String × Score)) (ps : List Player)
    (dflt : Player → Score) (upd : Player → Score → Score) : List (String × Score) :=
  ps.foldl (fun acc p => recSet acc p.id (upd p ((recGet acc p.id).getD (dflt p)))) lb

/-- Per-vote tally in insertion order of the accused identities
(tally[targetId] = (tally[targetId] ?? 0) + 1 over Object.values(votes)). -/
def tallyVotes (targets : List String) : List (String × Nat) :=
  targets.foldl (fun t targetId => recSet t targetId ((recGet t targetId).getD 0 + 1)) []

/-- Stable descending insertion used to model the stable JS
Array.prototype.sort with comparator (a, b) => b[1] - a[1]: a new element is
placed after every element whose count is at least its own. -/
def insertDesc (x : String × Nat) : List (String × Nat) → List (String × Nat)
  | [] => [x]
  | y :: ys => if x.2 ≤ y.2 then y :: insertDesc x ys else x :: y :: ys

def sortTallyDesc (l : List (String × Nat)) : List (String × Nat) :=
  l.foldl (fun acc x => insertDesc x acc) []

/-- The suspected identity computed by computeVoting: head of the stably
descending-sorted tally of Object.values(room.votes). -/
def suspectedOf (room : RoomState) : Option String :=
  ((sortTallyDesc (tallyVotes (room.votes.map (fun e => e.2)))).head?).map (fun e => e.1)

/-- JS strict inequality between suspected (string or undefined) and
imposterId (string or null): any mismatch of presence, and undefined vs null,
are strictly unequal. -/
def jsStrictNeq (a b : Option String) : Bool :=
  match a, b with
  | some x, some y => x != y
  | _, _ => true

def imposterWinsOf (room : RoomState) : Bool :=
  jsStrictNeq (suspectedOf room) room.imposterId

/-- The computeVoting function: tally, pick suspected, score every current
player once (defaulting a missing leaderboard entry to the player's own
counters), move to results and clear the deadline.  The pending timer is not
touched. -/
def computeVoting (room : RoomState) : RoomState :=
  let imposterWins := imposterWinsOf room
  let lb :=
    if room.imposterId.isSome then
      updateBoard room.leaderboard room.players
        (fun p => { wins := p.wins, losses := p.losses })
        (fun p s =>
          if imposterWins then
            if room.imposterId = some p.id then { s with wins := s.wins + 1 }
            else { s with losses := s.losses + 1 }
          else
            if room.imposterId = some p.id then { s with losses := s.losses + 1 }
            else { s with wins := s.wins + 1 })
    else room.leaderboard
  { room with leaderboard := lb, phase := Phase.results, turnEndsAt := none }

/-- The vote:submit handler body after the registry lookup: drop unless the
phase is voting, store the vote under the voter's key (overwriting in place),
and resolve once the number of stored votes reaches the player count. -/
def voteSubmit (room : RoomState) (voterId targetId : String) : RoomState :=
  if room.phase = Phase.voting then
    if room.players.length ≤ (recSet room.votes voterId targetId).length then
      computeVoting { room with votes := recSet room.votes voterId targetId }
    else { room with votes := recSet room.votes voterId targetId }
  else room

/-- The imposter:guess handler body after the registry lookup: drop (without
reply) unless the caller is the imposter; compare trimmed lower-cased guess
with the real word (no word assigned compares unequal); on a match move to
results and score every current player (leaderboard entries defaulting to
zero), with no phase precondition and no timer cancellation; reply with the
correctness flag. -/
def imposterGuess (room : RoomState) (callerId guess : String) :
    RoomState × Option Bool :=
  if room.imposterId = some callerId then
    if (match room.realWord with
        | some w => jsToLower (jsTrim guess) == jsToLower w
        | none => false) then
      ({ room with
          phase := Phase.results
          leaderboard := updateBoard room.leaderboard room.players
            (fun _ => { wins := 0, losses := 0 })
            (fun p s =>
              if p.id = callerId then { s with wins := s.wins + 1 }
              else { s with losses := s.losses + 1 }) },
        some true)
    else (room, some false)
  else (room, none)

/-- The game:start and round:next handler bodies (they are identical): drop
unless the caller is the host, then startGame. -/
def gameStartHandler (room : RoomState) (callerId : String) (impIdx : Nat)
    (realWord fakeWord : String) (now : Nat) : RoomState :=
  if room.hostId = callerId then startGame room impIdx realWord fakeWord now
  else room

/-- The draw:stroke handler body: drop unless the caller is the current
drawer and the phase is drawing, else append to the stroke log. -/
def drawStroke (room : RoomState) (callerId : String) (s : DrawEvent) : RoomState :=
  if room.currentDrawerId = some callerId ∧ room.phase = Phase.drawing then
    { room with drawing := room.drawing ++ [s] }
  else room

/-- The chat:send handler body: drop unless the caller is a current player,
else append the length-capped message. -/
def chatSend (room : RoomState) (callerId msg : String) (now : Nat) : RoomState :=
  match room.players.find? (fun p => p.id == callerId) with
  | some p =>
      { room with chat := room.chat ++
          [{ playerId := callerId, name := p.name, message := msg.take 200, ts := now }] }
  | none => room

/-- Fallback applied to display names: slice(0, 24) and a default label on
the empty string. -/
def defaultName (name fallback : String) : String :=
  if name.take 24 = "" then fallback else name.take 24

/-- The room constructed by the room:create handler (code is the nanoid
oracle output). -/
def createRoom (code sid name : String) : RoomState :=
  { code := code
    players := [{ id := sid, name := defaultName name "Host", isHost := true,
                  connected := true, wins := 0, losses := 0 }]
    phase := Phase.lobby
    hostId := sid
    turnIndex := 0
    round := 0
    imposterId := none
    realWord := none
    fakeWord := none
    currentDrawerId := none
    drawing := []
    chat := []
    votes := []
    leaderboard := [(sid, { wins := 0, losses := 0 })]
    turnEndsAt := none
    timerArmed := false }

/-- The room:join handler body once the room has been found: append a
non-host player and give it a fresh leaderboard entry. -/
def joinRoom (room : RoomState) (sid name : String) : RoomState :=
  { room with
      players := room.players ++
        [{ id := sid, name := defaultName name "Spieler", isHost := false,
           connected := true, wins := 0, losses := 0 }]
      leaderboard := recSet room.leaderboard sid { wins := 0, losses := 0 } }

/-- The disconnect handler body for a socket mapped to this room: drop the
player and its leaderboard entry, migrate the host flag to the first
remaining player when the host left, destroy the room (cancelling the timer)
when it became empty.  none models destruction. -/
def disconnectHandler (room : RoomState) (sid : String) : Option RoomState :=
  match room.players.filter (fun p => p.id != sid) with
  | [] => none
  | p :: rest =>
      if room.hostId = sid then
        some { room with
            players := { p with isHost := true } :: rest
            leaderboard := recDel room.leaderboard sid
            hostId := p.id }
      else
        some { room with
            players := p :: rest
            leaderboard := recDel room.leaderboard sid }

/-- Inbound events a live room can receive, with all external oracles
(caller identity, randomness, clock) as payload. -/
inductive Event where
  | join (sid name : String)
  | gameStart (callerId : String) (impIdx : Nat) (realWord fakeWord : String) (now : Nat)
  | roundNext (callerId : String) (impIdx : Nat) (realWord fakeWord : String) (now : Nat)
  | stroke (callerId : String) (s : DrawEvent)
  | chat (callerId msg : String) (now : Nat)
  | vote (voterId targetId : String)
  | guess (callerId text : String)
  | timer (now : Nat)
  | disconnect (sid : String)

/-- One step of a live room; none means the room was destroyed. -/
def stepRoom (room : RoomState) : Event → Option RoomState
  | Event.join sid name => some (joinRoom room sid name)
  | Event.gameStart c i rw fw now => some (gameStartHandler room c i rw fw now)
  | Event.roundNext c i rw fw now => some (gameStartHandler room c i rw fw now)
  | Event.stroke c s => some (drawStroke room c s)
  | Event.chat c m now => some (chatSend room c m now)
  | Event.vote v t => some (voteSubmit room v t)
  | Event.guess c g => some (imposterGuess room c g).1
  | Event.timer now => some (fireTimer room now)
  | Event.disconnect sid => disconnectHandler room sid

/-- Room states reachable from room creation through any event sequence. -/
inductive Reachable : RoomState → Prop where
  | init (code sid name : String) : Reachable (createRoom code sid name)
  | step {r r' : RoomState} (e : Event) (h : Reachable r)
      (hs : stepRoom r e = some r') : Reachable r'

/-- The room:create handler at registry level: the generated code is used
unconditionally as the key of the new room in the rooms map (rooms.set). -/
def createRoomServer (roomsMap : List (String × RoomState))
    (generatedCode sid name : String) : List (String × RoomState) × String :=
  (recSet roomsMap generatedCode (createRoom generatedCode sid name), generatedCode)

/- Concrete run used by several counterexamples: Alice creates a room, Bob
and Cara join, the host starts the game (the random oracle picks player
index 1, Bob, as imposter and the words Tisch and Rakete). -/

def trace0 : RoomState := createRoom "ROOM1" "A" "Alice"

def trace1 : RoomState := joinRoom trace0 "B" "Bob"

def trace2 : RoomState := joinRoom trace1 "C" "Cara"

def trace3 : RoomState := gameStartHandler trace2 "A" 1 "Tisch" "Rakete" 0

/-- The same run after all three drawing turns have expired: the room is in
the voting phase. -/
def votingState : RoomState :=
  fireTimer (fireTimer (fireTimer trace3 20100) 40200) 60300

/- Spec-side reading of the voting tie-break, for comparison with the
code-side suspectedOf. -/

/-- Scan of the running per-identity counts over the votes in cast order,
returning the first accused identity whose running count reaches m. -/
def runningReach : List String → List (String × Nat) → Nat → Option String
  | [], _, _ => none
  | v :: rest, counts, m =>
      let c := (recGet counts v).getD 0 + 1
      if c = m then some v else runningReach rest (recSet counts v c) m

def maxTallyCount (targets : List String) : Nat :=
  ((tallyVotes targets).map (fun e => e.2)).foldl max 0

/-- Modelled from the spec: the claim's tie-break rule, "the suspected
identity is the first accused identity to reach the maximum vote count, in
the order votes were cast". -/
def specSuspectedFirstToReachMax (targets : List String) : Option String :=
  runningReach targets [] (maxTallyCount targets)

/- A second concrete run with four players, exhibiting a tied vote: Paula
accuses Rene, Quinn accuses Sam, Rene accuses Sam, Sam accuses Rene.  The
accused order of the cast votes is Rene, Sam, Sam, Rene; Sam is the first to
reach the maximum count 2 (at the third vote), while Rene is the first
accused identity to enter the tally. -/

def c1t4 : RoomState :=
  gameStartHandler
    (joinRoom (joinRoom (joinRoom (createRoom "ROOM2" "P1" "Paula") "P2" "Quinn")
      "P3" "Rene") "P4" "Sam")
    "P1" 1 "Katze" "Nebel" 0

def c1votingState : RoomState :=
  fireTimer (fireTimer (fireTimer (fireTimer c1t4 20100) 40200) 60300) 80400

def c1pre : RoomState :=
  voteSubmit (voteSubmit (voteSubmit c1votingState "P1" "P3") "P2" "P4") "P3" "P4"

/- Concrete guess runs used for C2 and C4. -/

def guessedOnce : RoomState := (imposterGuess trace3 "B" " TISCH ").1

def guessedTwice : RoomState := (imposterGuess guessedOnce "B" "tisch").1

/- Concrete run for C3: in the voting phase Alice and Bob vote (2 of 3),
then Cara disconnects, making the number of stored votes equal to the
player count without any resolution being triggered. -/

def c3pre : RoomState := voteSubmit (voteSubmit votingState "A" "C") "B" "C"

def c3stuck : RoomState := (disconnectHandler c3pre "C").getD c3pre

/- Concrete run for C6: in the voting phase Alice votes and then
disconnects; her vote stays behind. -/

def c6voted : RoomState := voteSubmit votingState "A" "B"

def c6afterLeave : RoomState := (disconnectHandler c6voted "A").getD c6voted

/- Concrete registry for C8. -/

def existingRoom : RoomState := createRoom "ABC234" "A" "Alice"

def registryBefore : List (String × RoomState) := [("ABC234", existingRoom)]

/- Concrete disconnect during drawing, for C10: Cara leaves mid-turn. -/

def c10after : RoomState := (disconnectHandler trace3 "C").getD trace3

/- Concrete host departure, for C7: Alice leaves the two-player room and the
host flag must migrate to Bob. -/

def afterHostLeaves : RoomState := (disconnectHandler trace1 "A").getD trace1

/-- Running strict maximum by count: the later element replaces the current
best only when its count is strictly larger, so ties keep the earlier
element. -/
def stepMax (h x : String × Nat) : String × Nat :=
  if x.2 ≤ h.2 then h else x

/-- First entry of a tally holding its maximum count (in insertion order). -/
def firstMaxEntry : List (String × Nat) → Option (String × Nat)
  | [] => none
  | x :: xs => some (xs.foldl stepMax x)

/-- Host-flag invariant: exactly one player carries isHost, and it is the
player recorded as hostId. -/
def hostInv (r : RoomState) : Prop :=
  ∃ h, r.players.filter (fun p => p.isHost) = [h] ∧ h.id = r.hostId

/- Reachability of the concrete runs. -/

lemma reach_trace3 : Reachable trace3 :=
  Reachable.step (Event.gameStart "A" 1 "Tisch" "Rakete" 0)
    (Reachable.step (Event.join "C" "Cara")
      (Reachable.step (Event.join "B" "Bob")
        (Reachable.init "ROOM1" "A" "Alice") rfl) rfl) rfl

lemma reach_votingState : Reachable votingState :=
  Reachable.step (Event.timer 60300)
    (Reachable.step (Event.timer 40200)
      (Reachable.step (Event.timer 20100) reach_trace3 rfl) rfl) rfl

lemma reach_c1pre : Reachable c1pre :=
  Reachable.step (Event.vote "P3" "P4")
    (Reachable.step (Event.vote "P2" "P4")
      (Reachable.step (Event.vote "P1" "P3")
        (Reachable.step (Event.timer 80400)
          (Reachable.step (Event.timer 60300)
            (Reachable.step (Event.timer 40200)
              (Reachable.step (Event.timer 20100)
                (Reachable.step (Event.gameStart "P1" 1 "Katze" "Nebel" 0)
                  (Reachable.step (Event.join "P4" "Sam")
                    (Reachable.step (Event.join "P3" "Rene")
                      (Reachable.step (Event.join "P2" "Quinn")
                        (Reachable.init "ROOM2" "P1" "Paula") rfl) rfl) rfl) rfl)
                rfl) rfl) rfl) rfl) rfl) rfl) rfl

lemma reach_guessedOnce : Reachable guessedOnce :=
  Reachable.step (Event.guess "B" " TISCH ") reach_trace3 rfl

lemma reach_guessedTwice : Reachable guessedTwice :=
  Reachable.step (Event.guess "B" "tisch") reach_guessedOnce rfl

lemma reach_c6afterLeave : Reachable c6afterLeave :=
  Reachable.step (Event.disconnect "A")
    (Reachable.step (Event.vote "A" "B") reach_votingState rfl) rfl

lemma reach_c3stuck : Reachable c3stuck :=
  Reachable.step (Event.disconnect "C")
    (Reachable.step (Event.vote "B" "C")
      (Reachable.step (Event.vote "A" "C") reach_votingState rfl) rfl) rfl

/-- C1, counterexample: in a reachable four-player voting state, the fourth
vote invokes the resolution; the accused order of the stored votes is
P3, P4, P4, P3, so the first identity to reach the maximum count 2 in cast
order is P4, but the code resolves the tie to P3 (head of the stable
descending sort, i.e. the accused identity that entered the tally first). -/
theorem c1_counterexample :
    Reachable c1pre ∧ c1pre.phase = Phase.voting ∧
    c1pre.players.length = 4 ∧ c1pre.votes.length = 3 ∧
    (voteSubmit c1pre "P4" "P3").phase = Phase.results ∧
    (recSet c1pre.votes "P4" "P3").map (fun e => e.2) = ["P3", "P4", "P4", "P3"] ∧
    suspectedOf { c1pre with votes := recSet c1pre.votes "P4" "P3" } = some "P3" ∧
    specSuspectedFirstToReachMax
      ((recSet c1pre.votes "P4" "P3").map (fun e => e.2)) = some "P4" :=
  ⟨reach_c1pre, by decide⟩

/-- C2, counterexample: nothing stops the imposter repeating a correct
guess; in the reachable run the second correct guess of round 1 records a
second imposter win for every player, so the win is not recorded exactly
once per round. -/
theorem c2_counterexample :
    Reachable guessedTwice ∧ guessedOnce.round = 1 ∧ guessedTwice.round = 1 ∧
    recGet guessedOnce.leaderboard "B" = some { wins := 1, losses := 0 } ∧
    recGet guessedTwice.leaderboard "B" = some { wins := 2, losses := 0 } ∧
    recGet guessedTwice.leaderboard "A" = some { wins := 0, losses := 2 } :=
  ⟨reach_guessedTwice, by decide⟩

/-- C3, counterexample: a reachable room state in which the number of
distinct voters equals the current player count (Cara disconnected after
Alice and Bob voted), yet voting has not resolved: the phase is still
voting, because only a vote submission checks the threshold.  Resolution
therefore does not happen exactly when the counts become equal. -/
theorem c3_counterexample :
    Reachable c3stuck ∧ c3stuck.players.length = 2 ∧
    c3stuck.votes.length = 2 ∧ c3stuck.phase = Phase.voting :=
  ⟨reach_c3stuck, by decide⟩

/-- C4: the correct guess moved the room from drawing to results, yet the
pending turn timer was not cancelled, and when it fires its callback runs
without re-checking the phase or turn index: it increments turnIndex and
drags the results-phase room back into drawing, instead of no-opping. -/
theorem c4_timer_fires_after_results :
    trace3.phase = Phase.drawing ∧ trace3.turnIndex = 0 ∧
    trace3.timerArmed = true ∧
    guessedOnce.phase = Phase.results ∧ guessedOnce.timerArmed = true ∧
    (fireTimer guessedOnce 20100).phase = Phase.drawing ∧
    (fireTimer guessedOnce 20100).turnIndex = 1 ∧
    fireTimer guessedOnce 20100 ≠ guessedOnce := by decide

/-- C5, counterexample: in a reachable drawing-phase room the host's
start-game action is not dropped: it starts a fresh round (round counter
increments, votes cleared, new imposter and words drawn). -/
theorem c5_counterexample :
    Reachable trace3 ∧ trace3.phase = Phase.drawing ∧
    gameStartHandler trace3 "A" 0 "Haus" "Stern" 5 ≠ trace3 ∧
    (gameStartHandler trace3 "A" 0 "Haus" "Stern" 5).round = trace3.round + 1 :=
  ⟨reach_trace3, by decide⟩

/-- C6, counterexample: a reachable room state whose vote map still holds
the departed player's vote, so the vote-map keys are not a subset of the
current player identities. -/
theorem c6_counterexample :
    Reachable c6afterLeave ∧
    recGet c6afterLeave.votes "A" = some "B" ∧
    c6afterLeave.players.all (fun p => p.id != "A") = true :=
  ⟨reach_c6afterLeave, by decide⟩

/-- C8, counterexample: when the nanoid oracle emits a code equal to an
existing room's code, createRoom does not retry: it returns that code and
silently replaces the existing room in the registry. -/
theorem c8_counterexample :
    (createRoomServer registryBefore "ABC234" "B" "Bob").2 = "ABC234" ∧
    recGet registryBefore "ABC234" = some existingRoom ∧
    recGet (createRoomServer registryBefore "ABC234" "B" "Bob").1 "ABC234"
      = some (createRoom "ABC234" "B" "Bob") ∧
    createRoom "ABC234" "B" "Bob" ≠ existingRoom := by decide

/-- C9: the broadcast snapshot never depends on the real word, the decoy
word or the vote map (states differing only there yield identical
snapshots), and it exposes the imposter identity exactly in the results
phase, nulling it otherwise. -/
theorem c9_snapshot_secrecy :
    (∀ (r : RoomState) (rw fw : Option String) (vs : List (String × String)),
        roomView { r with realWord := rw, fakeWord := fw, votes := vs } = roomView r) ∧
    (∀ r : RoomState,
        (roomView r).imposterId =
          if r.phase = Phase.results then r.imposterId else none) :=
  ⟨fun _ _ _ _ => rfl, fun _ => rfl⟩

/- Lemmas about the JS object-key operations. -/

lemma recGet_recSet_self {α : Type} (m : List (String × α)) (k : String) (v : α) :
    recGet (recSet m k v) k = some v := by
  induction m with
  | nil => simp [recSet, recGet]
  | cons e rest ih =>
      by_cases h : e.1 = k
      · simp [recSet, h, recGet]
      · simp [recSet, h, recGet, ih]

lemma recGet_recSet_ne {α : Type} (m : List (String × α)) (k k' : String) (v : α)
    (h : k' ≠ k) : recGet (recSet m k v) k' = recGet m k' := by
  have hkk : k ≠ k' := Ne.symm h
  induction m with
  | nil => simp [recSet, recGet, hkk]
  | cons e rest ih =>
      by_cases he : e.1 = k
      · subst he
        simp [recSet, recGet, hkk]
      · simp only [recSet, if_neg he, recGet]
        by_cases he' : e.1 = k'
        · simp [he']
        · simp [he', ih]

lemma recGet_eq_none_iff {α : Type} (m : List (String × α)) (k : String) :
    recGet m k = none ↔ k ∉ recKeys m := by
  induction m with
  | nil => simp [recGet, recKeys]
  | cons e rest ih =>
      by_cases h : e.1 = k
      · simp [recGet, recKeys, h]
      · have hne : k ≠ e.1 := Ne.symm h
        simp [recGet, recKeys, h, ih, hne]

lemma recSet_length_of_get_some {α : Type} (m : List (String × α)) (k : String)
    (v : α) (h : recGet m k ≠ none) : (recSet m k v).length = m.length := by
  induction m with
  | nil => simp [recGet] at h
  | cons e rest ih =>
      by_cases he : e.1 = k
      · simp [recSet, he]
      · simp only [recGet, if_neg he] at h
        simp [recSet, he, ih h]

lemma recSet_length_of_get_none {α : Type} (m : List (String × α)) (k : String)
    (v : α) (h : recGet m k = none) : (recSet m k v).length = m.length + 1 := by
  induction m with
  | nil => rfl
  | cons e rest ih =>
      by_cases he : e.1 = k
      · simp [recGet, he] at h
      · simp only [recGet, if_neg he] at h
        simp [recSet, he, ih h]

lemma recKeys_recSet {α : Type} (m : List (String × α)) (k : String) (v : α) :
    recKeys (recSet m k v) =
      if k ∈ recKeys m then recKeys m else recKeys m ++ [k] := by
  induction m with
  | nil => simp [recSet, recKeys]
  | cons e rest ih =>
      by_cases he : e.1 = k
      · simp [recSet, he, recKeys]
      · have hne : k ≠ e.1 := Ne.symm he
        simp only [recSet, if_neg he, recKeys, List.map_cons] at ih ⊢
        rw [ih]
        by_cases hm : k ∈ rest.map (fun e => e.1)
        · rw [if_pos hm, if_pos (List.mem_cons_of_mem _ hm)]
        · rw [if_neg hm, if_neg (by simp [hne, hm]), List.cons_append]

lemma recKeys_nodup_recSet {α : Type} (m : List (String × α)) (k : String) (v : α)
    (h : (recKeys m).Nodup) : (recKeys (recSet m k v)).Nodup := by
  rw [recKeys_recSet]
  by_cases hm : k ∈ recKeys m
  · simp [hm, h]
  · simp only [if_neg hm]
    simp [List.nodup_append, h, hm]

/- Frame lemmas for the handlers. -/

lemma startTurn_frame (r : RoomState) (now : Nat) :
    (startTurn r now).players = r.players ∧ (startTurn r now).hostId = r.hostId ∧
    (startTurn r now).votes = r.votes ∧ (startTurn r now).round = r.round ∧
    (startTurn r now).turnIndex = r.turnIndex ∧
    (startTurn r now).leaderboard = r.leaderboard ∧
    (startTurn r now).imposterId = r.imposterId ∧
    (startTurn r now).realWord = r.realWord ∧
    (startTurn r now).fakeWord = r.fakeWord ∧
    (startTurn r now).chat = r.chat ∧ (startTurn r now).code = r.code := by
  unfold startTurn
  split
  · exact ⟨rfl, rfl, rfl, rfl, rfl, rfl, rfl, rfl, rfl, rfl, rfl⟩
  · split
    · exact ⟨rfl, rfl, rfl, rfl, rfl, rfl, rfl, rfl, rfl, rfl, rfl⟩
    · exact ⟨rfl, rfl, rfl, rfl, rfl, rfl, rfl, rfl, rfl, rfl, rfl⟩

lemma startTurn_phase_drawing (r : RoomState) (now : Nat)
    (h : r.turnIndex < r.players.length) :
    (startTurn r now).phase = Phase.drawing := by
  unfold startTurn
  rw [if_neg (by omega), if_neg (by omega)]

/-- C5 amended: a start-game or next-round action is dropped exactly when
the caller is not the host or fewer than three players are present; the
current phase is never consulted, so a host action with at least three
players takes effect in any phase, starting a fresh round (round counter
incremented, turn index reset, votes cleared, phase forced to drawing). -/
theorem c5_start_guards (r : RoomState) (caller : String) (impIdx : Nat)
    (rw fw : String) (now : Nat) :
    (r.hostId ≠ caller → gameStartHandler r caller impIdx rw fw now = r) ∧
    (r.players.length < 3 → gameStartHandler r caller impIdx rw fw now = r) ∧
    (r.hostId = caller → 3 ≤ r.players.length →
      (gameStartHandler r caller impIdx rw fw now).round = r.round + 1 ∧
      (gameStartHandler r caller impIdx rw fw now).turnIndex = 0 ∧
      (gameStartHandler r caller impIdx rw fw now).votes = [] ∧
      (gameStartHandler r caller impIdx rw fw now).phase = Phase.drawing) := by
  refine ⟨?_, ?_, ?_⟩
  · intro h
    unfold gameStartHandler
    rw [if_neg h]
  · intro h
    unfold gameStartHandler startGame
    by_cases hc : r.hostId = caller
    · rw [if_pos hc, if_pos h]
    · rw [if_neg hc]
  · intro h1 h2
    unfold gameStartHandler startGame
    rw [if_pos h1, if_neg (by omega)]
    refine ⟨?_, ?_, ?_, ?_⟩
    · exact (startTurn_frame _ now).2.2.2.1
    · exact (startTurn_frame _ now).2.2.2.2.1
    · exact (startTurn_frame _ now).2.2.1
    · exact startTurn_phase_drawing _ now (by simp; omega)

/-- C5 amended, witness: from the three-player lobby the host's start-game
takes effect and moves the room into round 1, drawing phase. -/
theorem c5_start_guards_witness :
    (gameStartHandler trace2 "A" 1 "Tisch" "Rakete" 0).round = trace2.round + 1 ∧
    (gameStartHandler trace2 "A" 1 "Tisch" "Rakete" 0).phase = Phase.drawing := by
  have h := (c5_start_guards trace2 "A" 1 "Tisch" "Rakete" 0).2.2
    (by decide) (by decide)
  exact ⟨h.1, h.2.2.2⟩

lemma disconnectHandler_some_frame (r : RoomState) (sid : String) (r' : RoomState)
    (h : disconnectHandler r sid = some r') :
    r'.phase = r.phase ∧ r'.round = r.round ∧ r'.turnIndex = r.turnIndex ∧
    r'.currentDrawerId = r.currentDrawerId ∧ r'.turnEndsAt = r.turnEndsAt ∧
    r'.drawing = r.drawing ∧ r'.chat = r.chat ∧ r'.timerArmed = r.timerArmed ∧
    r'.votes = r.votes ∧ r'.imposterId = r.imposterId ∧ r'.realWord = r.realWord ∧
    r'.fakeWord = r.fakeWord ∧ r'.code = r.code ∧
    r'.leaderboard = recDel r.leaderboard sid := by
  unfold disconnectHandler at h
  split at h
  · cases h
  · split at h <;>
      (cases h
       exact ⟨rfl, rfl, rfl, rfl, rfl, rfl, rfl, rfl, rfl, rfl, rfl, rfl, rfl, rfl⟩)

lemma disconnectHandler_nonhost (r : RoomState) (sid : String) (r' : RoomState)
    (hh : r.hostId ≠ sid) (h : disconnectHandler r sid = some r') :
    r'.players = r.players.filter (fun p => p.id != sid) ∧ r'.hostId = r.hostId := by
  unfold disconnectHandler at h
  split at h
  · cases h
  · rename_i p rest heq
    rw [if_neg hh] at h
    cases h
    exact ⟨heq.symm, rfl⟩

/-- C10: removing a player who is not the last one leaves the phase, round,
turn index, current drawer, deadline, stroke log, chat, armed timer, vote
map, imposter identity and both words unchanged; only the player list, the
departing player's leaderboard entry and possibly the host assignment
change; in particular the drawer's departure during drawing keeps the turn
running against the departed identity with the timer still armed. -/
theorem c10_disconnect_frame (r : RoomState) (sid : String) (r' : RoomState)
    (h : disconnectHandler r sid = some r') :
    r'.phase = r.phase ∧ r'.round = r.round ∧ r'.turnIndex = r.turnIndex ∧
    r'.currentDrawerId = r.currentDrawerId ∧ r'.turnEndsAt = r.turnEndsAt ∧
    r'.drawing = r.drawing ∧ r'.chat = r.chat ∧ r'.timerArmed = r.timerArmed ∧
    r'.votes = r.votes ∧ r'.imposterId = r.imposterId ∧ r'.realWord = r.realWord ∧
    r'.fakeWord = r.fakeWord ∧
    r'.leaderboard = recDel r.leaderboard sid ∧
    (r.hostId ≠ sid → r'.players = r.players.filter (fun p => p.id != sid) ∧
      r'.hostId = r.hostId) ∧
    (r.phase = Phase.drawing → r.currentDrawerId = some sid →
      r'.phase = Phase.drawing ∧ r'.currentDrawerId = some sid ∧
      r'.turnEndsAt = r.turnEndsAt ∧ r'.timerArmed = r.timerArmed) := by
  obtain ⟨h1, h2, h3, h4, h5, h6, h7, h8, h9, h10, h11, h12, _, h14⟩ :=
    disconnectHandler_some_frame r sid r' h
  refine ⟨h1, h2, h3, h4, h5, h6, h7, h8, h9, h10, h11, h12, h14, ?_, ?_⟩
  · intro hh
    exact disconnectHandler_nonhost r sid r' hh h
  · intro hp hd
    exact ⟨h1.trans hp, h4.trans hd, h5, h8⟩

/-- C10, witness: Cara disconnects during the drawing phase of the concrete
run; the frame conditions evaluate as stated. -/
theorem c10_disconnect_frame_witness :
    c10after.phase = trace3.phase ∧
    c10after.currentDrawerId = trace3.currentDrawerId ∧
    c10after.timerArmed = trace3.timerArmed := by
  obtain ⟨h1, _, _, h4, _, _, _, h8, _⟩ :=
    c10_disconnect_frame trace3 "C" c10after (by decide)
  exact ⟨h1, h4, h8⟩

/-- C6 amended: the vote map is cleared whenever a round actually starts
(host-triggered startGame with at least three players), but removing a
player leaves the vote map untouched, so its keys are not in general a
subset of the current player identities. -/
theorem c6_vote_map_lifecycle (r : RoomState) :
    (∀ sid r', disconnectHandler r sid = some r' → r'.votes = r.votes) ∧
    (∀ (caller : String) (impIdx : Nat) (rw fw : String) (now : Nat),
      r.hostId = caller → 3 ≤ r.players.length →
      (gameStartHandler r caller impIdx rw fw now).votes = [] ∧
      (gameStartHandler r caller impIdx rw fw now).round = r.round + 1) := by
  constructor
  · intro sid r' h
    exact (disconnectHandler_some_frame r sid r' h).2.2.2.2.2.2.2.2.1
  · intro caller impIdx rw fw now h1 h2
    unfold gameStartHandler startGame
    rw [if_pos h1, if_neg (by omega)]
    exact ⟨(startTurn_frame _ now).2.2.1, (startTurn_frame _ now).2.2.2.1⟩

/-- C6 amended, witness: in the concrete voting-phase room the host's next
round clears the vote map. -/
theorem c6_vote_map_lifecycle_witness :
    (gameStartHandler votingState "A" 0 "Haus" "Stern" 99).votes = [] := by
  exact ((c6_vote_map_lifecycle votingState).2 "A" 0 "Haus" "Stern" 99
    (by decide) (by decide)).1

/-- C3 amended: resolution is triggered only by a vote submission in the
voting phase that brings the stored-vote count up to the player count; a
submission below the threshold just stores the vote and stays in voting; a
resubmission by a voter with a live vote overwrites it without growing the
vote count; and a disconnect never resolves voting even though it shrinks
the player count (and it leaves the vote map unchanged). -/
theorem c3_vote_resolution (r : RoomState) (v t : String) :
    (r.phase ≠ Phase.voting → voteSubmit r v t = r) ∧
    (r.phase = Phase.voting → (recSet r.votes v t).length < r.players.length →
      voteSubmit r v t = { r with votes := recSet r.votes v t } ∧
      (voteSubmit r v t).phase = Phase.voting) ∧
    (r.phase = Phase.voting → r.players.length ≤ (recSet r.votes v t).length →
      (voteSubmit r v t).phase = Phase.results ∧
      (voteSubmit r v t).votes = recSet r.votes v t) ∧
    (recGet r.votes v ≠ none → (recSet r.votes v t).length = r.votes.length) ∧
    (∀ sid r', disconnectHandler r sid = some r' →
      r'.phase = r.phase ∧ r'.votes = r.votes) := by
  refine ⟨?_, ?_, ?_, ?_, ?_⟩
  · intro h
    unfold voteSubmit
    rw [if_neg h]
  · intro h1 h2
    unfold voteSubmit
    rw [if_pos h1, if_neg (by omega)]
    exact ⟨rfl, h1⟩
  · intro h1 h2
    unfold voteSubmit
    rw [if_pos h1, if_pos h2]
    exact ⟨rfl, rfl⟩
  · intro h
    exact recSet_length_of_get_some r.votes v t h
  · intro sid r' h
    have hf := disconnectHandler_some_frame r sid r' h
    exact ⟨hf.1, hf.2.2.2.2.2.2.2.2.1⟩

/-- C3 amended, witness: in the concrete voting-phase room a first vote is
below the threshold, so it is stored and the room stays in voting. -/
theorem c3_vote_resolution_witness :
    voteSubmit votingState "A" "B" =
      { votingState with votes := recSet votingState.votes "A" "B" } ∧
    (voteSubmit votingState "A" "B").phase = Phase.voting :=
  (c3_vote_resolution votingState "A" "B").2.1 (by decide) (by decide)

/-- C8 amended: createRoom uses the generated code unconditionally: the new
room is registered under it, every other code's entry is untouched, and a
registry without duplicate codes stays without duplicates (a collision
replaces the existing room rather than triggering a retry). -/
theorem c8_create_overwrites (roomsMap : List (String × RoomState))
    (code sid name : String) :
    (createRoomServer roomsMap code sid name).2 = code ∧
    recGet (createRoomServer roomsMap code sid name).1 code
      = some (createRoom code sid name) ∧
    (∀ c, c ≠ code → recGet (createRoomServer roomsMap code sid name).1 c
      = recGet roomsMap c) ∧
    ((recKeys roomsMap).Nodup →
      (recKeys (createRoomServer roomsMap code sid name).1).Nodup) := by
  refine ⟨rfl, ?_, ?_, ?_⟩
  · exact recGet_recSet_self _ _ _
  · intro c hc
    exact recGet_recSet_ne _ _ _ _ hc
  · intro h
    exact recKeys_nodup_recSet _ _ _ h

/-- C8 amended, witness: a fresh code leaves the old room's entry untouched
and keeps the registry duplicate-free. -/
theorem c8_create_overwrites_witness :
    recGet (createRoomServer registryBefore "XYZ789" "B" "Bob").1 "ABC234"
      = recGet registryBefore "ABC234" ∧
    (recKeys (createRoomServer registryBefore "XYZ789" "B" "Bob").1).Nodup := by
  have h := c8_create_overwrites registryBefore "XYZ789" "B" "Bob"
  exact ⟨h.2.2.1 "ABC234" (by decide), h.2.2.2 (by decide)⟩

/- Lemmas about the per-player leaderboard update. -/

lemma updateBoard_get_not_mem (lb : List (String × Score)) (ps : List Player)
    (dflt : Player → Score) (upd : Player → Score → Score) (k : String)
    (h : ∀ p ∈ ps, p.id ≠ k) :
    recGet (updateBoard lb ps dflt upd) k = recGet lb k := by
  induction ps generalizing lb with
  | nil => rfl
  | cons q rest ih =>
      have hq : q.id ≠ k := h q (List.mem_cons_self q rest)
      rw [show updateBoard lb (q :: rest) dflt upd =
        updateBoard (recSet lb q.id (upd q ((recGet lb q.id).getD (dflt q))))
          rest dflt upd from rfl]
      rw [ih _ (fun p hp => h p (List.mem_cons_of_mem q hp))]
      exact recGet_recSet_ne _ _ _ _ (Ne.symm hq)

lemma updateBoard_get_mem (lb : List (String × Score)) (ps : List Player)
    (dflt : Player → Score) (upd : Player → Score → Score) (p : Player)
    (hmem : p ∈ ps) (hnd : (ps.map Player.id).Nodup) :
    recGet (updateBoard lb ps dflt upd) p.id =
      some (upd p ((recGet lb p.id).getD (dflt p))) := by
  induction ps generalizing lb with
  | nil => cases hmem
  | cons q rest ih =>
      rw [List.map_cons, List.nodup_cons] at hnd
      rw [show updateBoard lb (q :: rest) dflt upd =
        updateBoard (recSet lb q.id (upd q ((recGet lb q.id).getD (dflt q))))
          rest dflt upd from rfl]
      rcases List.mem_cons.mp hmem with heq | hmem'
      · subst heq
        rw [updateBoard_get_not_mem _ rest dflt upd p.id
          (fun x hx hex => hnd.1 (hex ▸ List.mem_map_of_mem Player.id hx))]
        exact recGet_recSet_self _ _ _
      · have hpq : p.id ≠ q.id := by
          intro he
          exact hnd.1 (he ▸ List.mem_map_of_mem Player.id hmem')
        rw [ih _ hmem' hnd.2, recGet_recSet_ne _ _ _ _ hpq]

/-- C2 amended: a guess by the imposter whose trimmed lower-cased text
matches the real word moves the room to results with no phase precondition,
keeps the round counter, replies true, and records one imposter win for
every current player per guess (imposter's entry gains a win, every other
entry gains a loss, a missing entry defaulting to zero); a mismatching
guess, or a guess with no word assigned, leaves the room unchanged and
replies false.  The recording happens once per correct guess, which the
code does not limit to once per round. -/
theorem c2_guess_scoring (r : RoomState) (callerId guess : String)
    (himp : r.imposterId = some callerId)
    (hnd : (r.players.map Player.id).Nodup) :
    (∀ w, r.realWord = some w → jsToLower (jsTrim guess) = jsToLower w →
      (imposterGuess r callerId guess).1.phase = Phase.results ∧
      (imposterGuess r callerId guess).2 = some true ∧
      (imposterGuess r callerId guess).1.round = r.round ∧
      (∀ p ∈ r.players,
        recGet (imposterGuess r callerId guess).1.leaderboard p.id =
          some (
            let s := (recGet r.leaderboard p.id).getD { wins := 0, losses := 0 }
            if p.id = callerId then { s with wins := s.wins + 1 }
            else { s with losses := s.losses + 1 }))) ∧
    (∀ w, r.realWord = some w → jsToLower (jsTrim guess) ≠ jsToLower w →
      imposterGuess r callerId guess = (r, some false)) ∧
    (r.realWord = none → imposterGuess r callerId guess = (r, some false)) := by
  refine ⟨?_, ?_, ?_⟩
  · intro w hw heq
    unfold imposterGuess
    rw [if_pos himp, hw]
    split
    · refine ⟨rfl, rfl, rfl, ?_⟩
      intro p hp
      exact updateBoard_get_mem r.leaderboard r.players
        (fun _ => { wins := 0, losses := 0 })
        (fun p s =>
          if p.id = callerId then { s with wins := s.wins + 1 }
          else { s with losses := s.losses + 1 }) p hp hnd
    · rename_i hb
      simp [heq] at hb
  · intro w hw hne
    unfold imposterGuess
    rw [if_pos himp, hw]
    split
    · rename_i hb
      simp [hne] at hb
    · rfl
  · intro hnone
    unfold imposterGuess
    rw [if_pos himp, hnone]
    rfl

/-- C2 amended, witness: the imposter's padded upper-case guess of the real
word in the concrete run resolves to results with the true reply. -/
theorem c2_guess_scoring_witness :
    (imposterGuess trace3 "B" " TISCH ").1.phase = Phase.results ∧
    (imposterGuess trace3 "B" " TISCH ").2 = some true := by
  have h := (c2_guess_scoring trace3 "B" " TISCH " (by decide) (by decide)).1
    "Tisch" (by decide) (by decide)
  exact ⟨h.1, h.2.1⟩

/- Head of the stable descending sort: it is the first entry of the list
holding the maximum count. -/

lemma insertDesc_head (x : String × Nat) (s : List (String × Nat)) :
    (insertDesc x s).head? = some (match s.head? with
      | none => x
      | some h => stepMax h x) := by
  cases s with
  | nil => rfl
  | cons y ys => by_cases h : x.2 ≤ y.2 <;> simp [insertDesc, stepMax, h]

lemma head_foldl_insertDesc (l : List (String × Nat)) :
    ∀ s : List (String × Nat),
      (l.foldl (fun acc x => insertDesc x acc) s).head? =
        l.foldl (fun h? x =>
          match h? with
          | none => some x
          | some h => some (stepMax h x)) s.head? := by
  induction l with
  | nil => intro s; rfl
  | cons x xs ih =>
      intro s
      rw [List.foldl_cons, List.foldl_cons, ih (insertDesc x s), insertDesc_head]
      cases s with
      | nil => rfl
      | cons y ys => rfl

lemma foldl_stepMax_some (xs : List (String × Nat)) :
    ∀ h : String × Nat,
      xs.foldl (fun h? x =>
        match h? with
        | none => some x
        | some hh => some (stepMax hh x)) (some h) = some (xs.foldl stepMax h) := by
  induction xs with
  | nil => intro h; rfl
  | cons x xs ih =>
      intro h
      rw [List.foldl_cons, List.foldl_cons]
      exact ih (stepMax h x)

lemma sortTallyDesc_head (l : List (String × Nat)) :
    (sortTallyDesc l).head? = firstMaxEntry l := by
  cases l with
  | nil => rfl
  | cons x xs =>
      unfold sortTallyDesc firstMaxEntry
      rw [List.foldl_cons, head_foldl_insertDesc xs (insertDesc x [])]
      exact foldl_stepMax_some xs x

lemma foldl_stepMax_spec (xs : List (String × Nat)) :
    ∀ h : String × Nat,
      ∃ l₁ l₂, h :: xs = l₁ ++ (xs.foldl stepMax h) :: l₂ ∧
        (∀ y ∈ l₁, y.2 < (xs.foldl stepMax h).2) ∧
        (∀ y ∈ h :: xs, y.2 ≤ (xs.foldl stepMax h).2) := by
  induction xs with
  | nil =>
      intro h
      exact ⟨[], [], rfl, by simp, by simp⟩
  | cons x xs ih =>
      intro h
      rw [List.foldl_cons]
      obtain ⟨l₁, l₂, hdec, hlt, hle⟩ := ih (stepMax h x)
      by_cases hx : x.2 ≤ h.2
      · have hsm : stepMax h x = h := by unfold stepMax; rw [if_pos hx]
        rw [hsm] at hdec hlt hle ⊢
        have hh2 : h.2 ≤ (xs.foldl stepMax h).2 := hle h (List.mem_cons_self h xs)
        cases l₁ with
        | nil =>
            injection hdec with he hl
            refine ⟨[], x :: xs, ?_, by simp, ?_⟩
            · rw [List.nil_append, ← he]
            · intro y hy
              rcases List.mem_cons.mp hy with h1 | hy'
              · rw [h1]
                exact hh2
              rcases List.mem_cons.mp hy' with h2 | hy''
              · rw [h2]
                exact le_trans hx hh2
              · exact hle y (List.mem_cons_of_mem h hy'')
        | cons a l₁' =>
            injection hdec with he hl
            have ha2 : a.2 < (xs.foldl stepMax h).2 :=
              hlt a (List.mem_cons_self a l₁')
            have hha : h.2 = a.2 := by rw [he]
            have hh2' : h.2 < (xs.foldl stepMax h).2 :=
              lt_of_le_of_lt (le_of_eq hha) ha2
            refine ⟨h :: x :: l₁', l₂, ?_, ?_, ?_⟩
            · rw [List.cons_append, List.cons_append]
              exact congrArg (fun t => h :: x :: t) hl
            · intro y hy
              rcases List.mem_cons.mp hy with h1 | hy'
              · rw [h1]
                exact hh2'
              rcases List.mem_cons.mp hy' with h2 | hy''
              · rw [h2]
                exact lt_of_le_of_lt hx hh2'
              · exact hlt y (List.mem_cons_of_mem a hy'')
            · intro y hy
              rcases List.mem_cons.mp hy with h1 | hy'
              · rw [h1]
                exact hh2
              rcases List.mem_cons.mp hy' with h2 | hy''
              · rw [h2]
                exact le_trans hx hh2
              · exact hle y (List.mem_cons_of_mem h hy'')
      · have hsm : stepMax h x = x := by unfold stepMax; rw [if_neg hx]
        rw [hsm] at hdec hlt hle ⊢
        have hhx : h.2 < x.2 := not_le.mp hx
        have hxe : x.2 ≤ (xs.foldl stepMax x).2 :=
          hle x (List.mem_cons_self x xs)
        refine ⟨h :: l₁, l₂, ?_, ?_, ?_⟩
        · rw [List.cons_append, ← hdec]
        · intro y hy
          rcases List.mem_cons.mp hy with h1 | hy'
          · rw [h1]
            exact lt_of_lt_of_le hhx hxe
          · exact hlt y hy'
        · intro y hy
          rcases List.mem_cons.mp hy with h1 | hy'
          · rw [h1]
            exact le_of_lt (lt_of_lt_of_le hhx hxe)
          · exact hle y hy'

lemma firstMaxEntry_spec (l : List (String × Nat)) (e : String × Nat)
    (h : firstMaxEntry l = some e) :
    ∃ l₁ l₂, l = l₁ ++ e :: l₂ ∧ (∀ y ∈ l₁, y.2 < e.2) ∧ (∀ y ∈ l, y.2 ≤ e.2) := by
  cases l with
  | nil => cases h
  | cons x xs =>
      injection h with h'
      obtain ⟨l₁, l₂, hd, hlt, hle⟩ := foldl_stepMax_spec xs x
      rw [h'] at hd hlt hle
      exact ⟨l₁, l₂, hd, hlt, hle⟩

/-- C1 amended: the suspected identity computed by resolveVoting is the
first tally entry, in tally insertion order (the order in which accused
identities received their first vote), that holds the maximum count: it is
an entry of the tally, every earlier entry has a strictly smaller count and
no entry anywhere has a larger one.  The tie does not go to the first
identity to reach the maximum count in cast order.  The imposter side wins
exactly when the suspected identity is not the same defined identity as the
imposter; with zero votes the suspected identity is undefined and the
imposter side wins by default. -/
theorem c1_suspected_tiebreak (r : RoomState) :
    (suspectedOf r =
      (firstMaxEntry (tallyVotes (r.votes.map (fun e => e.2)))).map (fun e => e.1)) ∧
    (∀ e, firstMaxEntry (tallyVotes (r.votes.map (fun e => e.2))) = some e →
      ∃ l₁ l₂, tallyVotes (r.votes.map (fun e => e.2)) = l₁ ++ e :: l₂ ∧
        (∀ y ∈ l₁, y.2 < e.2) ∧
        (∀ y ∈ tallyVotes (r.votes.map (fun e => e.2)), y.2 ≤ e.2)) ∧
    (r.votes = [] → suspectedOf r = none ∧ imposterWinsOf r = true) ∧
    (imposterWinsOf r = true ↔
      ¬ ∃ s, suspectedOf r = some s ∧ r.imposterId = some s) := by
  refine ⟨?_, ?_, ?_, ?_⟩
  · unfold suspectedOf
    rw [sortTallyDesc_head]
  · intro e he
    exact firstMaxEntry_spec _ e he
  · intro hv
    have hnone : suspectedOf r = none := by
      unfold suspectedOf
      rw [hv]
      rfl
    refine ⟨hnone, ?_⟩
    unfold imposterWinsOf
    rw [hnone]
    cases r.imposterId <;> rfl
  · constructor
    · intro hw hex
      obtain ⟨s, hs, hi⟩ := hex
      unfold imposterWinsOf at hw
      rw [hs, hi] at hw
      simp [jsStrictNeq] at hw
    · intro hne
      unfold imposterWinsOf
      cases hs : suspectedOf r with
      | none => cases r.imposterId <;> rfl
      | some s =>
          cases hi : r.imposterId with
          | none => rfl
          | some i =>
              have hsi : s ≠ i := by
                intro he
                exact hne ⟨s, hs, by rw [hi, he]⟩
              simp [jsStrictNeq, hsi]

/-- C1 amended, witness: the freshly created room has no votes, so the
suspected identity is undefined and the imposter side wins by default. -/
theorem c1_suspected_tiebreak_witness :
    suspectedOf trace0 = none ∧ imposterWinsOf trace0 = true :=
  (c1_suspected_tiebreak trace0).2.2.1 rfl

/- Preservation of the host invariant along every room step. -/

lemma hostInv_congr {r r' : RoomState} (hp : r'.players = r.players)
    (hh : r'.hostId = r.hostId) (h : hostInv r) : hostInv r' := by
  obtain ⟨x, h1, h2⟩ := h
  exact ⟨x, by rw [hp, h1], by rw [hh, h2]⟩

lemma fireTimer_players_hostId (r : RoomState) (now : Nat) :
    (fireTimer r now).players = r.players ∧ (fireTimer r now).hostId = r.hostId := by
  unfold fireTimer
  split
  · exact ⟨(startTurn_frame _ now).1, (startTurn_frame _ now).2.1⟩
  · exact ⟨rfl, rfl⟩

lemma startGame_players_hostId (r : RoomState) (impIdx : Nat) (rw fw : String)
    (now : Nat) :
    (startGame r impIdx rw fw now).players = r.players ∧
    (startGame r impIdx rw fw now).hostId = r.hostId := by
  unfold startGame
  split
  · exact ⟨rfl, rfl⟩
  · exact ⟨(startTurn_frame _ now).1, (startTurn_frame _ now).2.1⟩

lemma gameStartHandler_players_hostId (r : RoomState) (c : String) (i : Nat)
    (rw fw : String) (now : Nat) :
    (gameStartHandler r c i rw fw now).players = r.players ∧
    (gameStartHandler r c i rw fw now).hostId = r.hostId := by
  unfold gameStartHandler
  split
  · exact startGame_players_hostId r i rw fw now
  · exact ⟨rfl, rfl⟩

lemma voteSubmit_players_hostId (r : RoomState) (v t : String) :
    (voteSubmit r v t).players = r.players ∧
    (voteSubmit r v t).hostId = r.hostId := by
  unfold voteSubmit
  split
  · split
    · exact ⟨rfl, rfl⟩
    · exact ⟨rfl, rfl⟩
  · exact ⟨rfl, rfl⟩

lemma imposterGuess_players_hostId (r : RoomState) (c g : String) :
    (imposterGuess r c g).1.players = r.players ∧
    (imposterGuess r c g).1.hostId = r.hostId := by
  unfold imposterGuess
  split
  · split
    · exact ⟨rfl, rfl⟩
    · exact ⟨rfl, rfl⟩
  · exact ⟨rfl, rfl⟩

lemma chatSend_players_hostId (r : RoomState) (c m : String) (now : Nat) :
    (chatSend r c m now).players = r.players ∧
    (chatSend r c m now).hostId = r.hostId := by
  unfold chatSend
  split
  · exact ⟨rfl, rfl⟩
  · exact ⟨rfl, rfl⟩

lemma drawStroke_players_hostId (r : RoomState) (c : String) (s : DrawEvent) :
    (drawStroke r c s).players = r.players ∧
    (drawStroke r c s).hostId = r.hostId := by
  unfold drawStroke
  split
  · exact ⟨rfl, rfl⟩
  · exact ⟨rfl, rfl⟩

lemma hostInv_join (r : RoomState) (sid name : String) (h : hostInv r) :
    hostInv (joinRoom r sid name) := by
  obtain ⟨x, h1, h2⟩ := h
  refine ⟨x, ?_, h2⟩
  rw [show (joinRoom r sid name).players = r.players ++
    [{ id := sid, name := defaultName name "Spieler", isHost := false,
       connected := true, wins := 0, losses := 0 }] from rfl]
  rw [List.filter_append, h1]
  rfl

lemma filter_comm_bool (l : List Player) (p q : Player → Bool) :
    (l.filter p).filter q = (l.filter q).filter p := by
  induction l with
  | nil => rfl
  | cons a t ih =>
      by_cases hp : p a = true <;> by_cases hq : q a = true <;>
        simp [List.filter_cons, hp, hq, ih]

lemma hostInv_disconnect (r : RoomState) (sid : String) (r' : RoomState)
    (h : disconnectHandler r sid = some r') (hi : hostInv r) : hostInv r' := by
  obtain ⟨x, hfil, hid⟩ := hi
  unfold disconnectHandler at h
  split at h
  · cases h
  · rename_i p rest heq
    by_cases hh : r.hostId = sid
    · rw [if_pos hh] at h
      cases h
      have hnone : (p :: rest).filter (fun q => q.isHost) = [] := by
        rw [← heq, filter_comm_bool, hfil, List.filter_cons]
        rw [if_neg (by simp [hid, hh])]
        rfl
      rw [List.filter_cons] at hnone
      by_cases hpb : p.isHost = true
      · rw [if_pos hpb] at hnone
        cases hnone
      · rw [if_neg hpb] at hnone
        refine ⟨{ p with isHost := true }, ?_, rfl⟩
        show ({ p with isHost := true } :: rest).filter (fun q => q.isHost) =
          [{ p with isHost := true }]
        simp [List.filter_cons, hnone]
    · rw [if_neg hh] at h
      cases h
      refine ⟨x, ?_, hid⟩
      show (p :: rest).filter (fun q => q.isHost) = [x]
      rw [← heq, filter_comm_bool, hfil]
      simp [List.filter_cons, hid, hh]

lemma hostInv_init (code sid name : String) :
    hostInv (createRoom code sid name) :=
  ⟨{ id := sid, name := defaultName name "Host", isHost := true,
     connected := true, wins := 0, losses := 0 }, rfl, rfl⟩

lemma hostInv_step (r r' : RoomState) (e : Event) (hs : stepRoom r e = some r')
    (hi : hostInv r) : hostInv r' := by
  cases e with
  | join sid name =>
      cases hs
      exact hostInv_join r sid name hi
  | gameStart c i rw fw now =>
      cases hs
      exact hostInv_congr (gameStartHandler_players_hostId r c i rw fw now).1
        (gameStartHandler_players_hostId r c i rw fw now).2 hi
  | roundNext c i rw fw now =>
      cases hs
      exact hostInv_congr (gameStartHandler_players_hostId r c i rw fw now).1
        (gameStartHandler_players_hostId r c i rw fw now).2 hi
  | stroke c s =>
      cases hs
      exact hostInv_congr (drawStroke_players_hostId r c s).1
        (drawStroke_players_hostId r c s).2 hi
  | chat c m now =>
      cases hs
      exact hostInv_congr (chatSend_players_hostId r c m now).1
        (chatSend_players_hostId r c m now).2 hi
  | vote v t =>
      cases hs
      exact hostInv_congr (voteSubmit_players_hostId r v t).1
        (voteSubmit_players_hostId r v t).2 hi
  | guess c g =>
      cases hs
      exact hostInv_congr (imposterGuess_players_hostId r c g).1
        (imposterGuess_players_hostId r c g).2 hi
  | timer now =>
      cases hs
      exact hostInv_congr (fireTimer_players_hostId r now).1
        (fireTimer_players_hostId r now).2 hi
  | disconnect sid =>
      exact hostInv_disconnect r sid r' hs hi

lemma reachable_hostInv (r : RoomState) (h : Reachable r) : hostInv r := by
  induction h with
  | init code sid name => exact hostInv_init code sid name
  | step e h hs ih => exact hostInv_step _ _ e hs ih

/-- C7: in every reachable room state exactly one player carries the host
flag (in particular whenever the player list is non-empty), and when the
player holding it disconnects while others remain, the flag migrates
deterministically to the first remaining player of the list, which also
becomes the recorded host identity, keeping the flag unique. -/
theorem c7_single_host (r : RoomState) (hr : Reachable r) :
    (r.players.filter (fun p => p.isHost)).length = 1 ∧
    (∀ sid r', sid = r.hostId → disconnectHandler r sid = some r' →
      ∃ q rest, r.players.filter (fun p => p.id != sid) = q :: rest ∧
        r'.players = { q with isHost := true } :: rest ∧
        r'.hostId = q.id ∧
        (r'.players.filter (fun p => p.isHost)).length = 1) := by
  obtain ⟨x, hfil, hid⟩ := reachable_hostInv r hr
  constructor
  · rw [hfil]
    rfl
  · intro sid r' hsid h
    obtain ⟨x', hfil', hid'⟩ := hostInv_disconnect r sid r' h ⟨x, hfil, hid⟩
    unfold disconnectHandler at h
    split at h
    · cases h
    · rename_i q rest heq
      rw [if_pos hsid.symm] at h
      cases h
      exact ⟨q, rest, heq, rfl, rfl, by rw [hfil']; rfl⟩

/-- C7, witness: in the two-player room the host flag is unique, and after
the host Alice leaves it has migrated to Bob, staying unique. -/
theorem c7_single_host_witness :
    (trace1.players.filter (fun p => p.isHost)).length = 1 ∧
    (afterHostLeaves.players.filter (fun p => p.isHost)).length = 1 := by
  have h := c7_single_host trace1
    (Reachable.step (Event.join "B" "Bob") (Reachable.init "ROOM1" "A" "Alice") rfl)
  obtain ⟨_, _, _, _, _, hl⟩ := h.2 "A" afterHostLeaves rfl (by decide)
  exact ⟨h.1, hl⟩

end DrawingImposter
